import Mathlib

/-
Verification of the pontus-x registry hooks core logic
(src/hooks.ts): search matching, paginated aggregation,
legacy merge, and the single-identity fetchers.

JavaScript values that flow through the matcher are modelled by a
JSON value type; machine strings are Lean `String`s; fallible fetches
return `Except`; the external transport is a function parameter
(page number / response) so that every definition stays executable.
-/

/-- Model of a JavaScript/JSON value as stored in `credentialsData`. -/
inductive Json where
  | null
  | bool (b : Bool)
  | num (n : Int)
  | str (s : String)
  | arr (elems : List Json)
  | obj (fields : List (String × Json))
deriving Repr

/-- Truthiness of a JavaScript value (`!v` in JS negates this). -/
def Json.jsTruthy : Json → Bool
  | .null => false
  | .bool b => b
  | .num n => n != 0
  | .str s => s != ""
  | .arr _ => true
  | .obj _ => true

/-- Whether `typeof v === 'object'` holds in JavaScript
(objects, arrays and `null` all satisfy it). -/
def Json.isObjectType : Json → Bool
  | .obj _ => true
  | .arr _ => true
  | .null => true
  | _ => false

/-- Model of JavaScript `Object.values` on an object or array value. -/
def Json.objValues : Json → List Json
  | .obj fields => fields.map Prod.snd
  | .arr elems => elems
  | _ => []

/-- Whether the character list `sub` occurs at the start of `hay`. -/
def charsStartWith : List Char → List Char → Bool
  | _, [] => true
  | [], _ :: _ => false
  | a :: as, b :: bs => a == b && charsStartWith as bs

/-- Whether the character list `sub` occurs somewhere inside `hay`. -/
def charsInclude : List Char → List Char → Bool
  | [], sub => sub.isEmpty
  | a :: as, sub => charsStartWith (a :: as) sub || charsInclude as sub

/-- Model of JavaScript `hay.includes(sub)` on strings. -/
def jsIncludes (hay sub : String) : Bool :=
  charsInclude hay.toList sub.toList

/-- Lowercasing of a string, character by character (model of JS
`toLowerCase` for the ASCII data the registry holds). -/
def strLower (s : String) : String :=
  String.mk (s.data.map Char.toLower)

/-- Uppercasing of a string, character by character (model of JS
`toUpperCase`). -/
def strUpper (s : String) : String :=
  String.mk (s.data.map Char.toUpper)

/-- Drops leading whitespace characters from a character list. -/
def dropLeadingSpace : List Char → List Char
  | [] => []
  | c :: cs => if c.isWhitespace then dropLeadingSpace cs else c :: cs

/-- Model of JS `trim`: removes whitespace at both ends. -/
def strTrim (s : String) : String :=
  String.mk ((dropLeadingSpace (dropLeadingSpace s.data).reverse).reverse)

/-- An identity record: covers both the primary (v1) shape and the
deprecated (0.x) shape of `PontusXIdentity` / `PontusXIdentityDeprecated`.
`legalName` is `none` for JS `null`/`undefined`; `credentialsData` is
`none` when the field is absent (deprecated identities). The remaining
v1 fields (contract address, tx hash, timestamps, ...) never influence
the logic under verification and are omitted from the model. -/
structure Identity where
  walletAddress : String
  legalName : Option String := none
  version : String := "v1"
  credentialsData : Option (List (String × Json)) := none
deriving Repr

/-- Search criteria (`PontusXSearchCriteria`): each field optional. -/
structure SearchCriteria where
  walletAddress : Option String := none
  legalName : Option String := none
  registrationNumber : Option String := none
  countryCode : Option String := none
deriving Repr

/-- Step 1 of `matchIdentity`: wallet-address criterion. A JS-falsy
criterion (absent or empty string) is skipped. -/
def matchWalletStep (identity : Identity) (search : SearchCriteria) : Bool :=
  match search.walletAddress with
  | none => true
  | some s =>
    if s == "" then true
    else strLower identity.walletAddress == strLower s

/-- Step 2 of `matchIdentity`: legal-name criterion. A JS-falsy
identity legal name (`null` or `""`) fails the criterion. -/
def matchLegalNameStep (identity : Identity) (search : SearchCriteria) : Bool :=
  match search.legalName with
  | none => true
  | some s =>
    if s == "" then true
    else
      match identity.legalName with
      | none => false
      | some ln => if ln == "" then false else jsIncludes (strLower ln) (strLower s)

/-- Guard on one credential object plus a scan over its values,
mirroring `!credential || typeof credential !== 'object'` followed by
`Object.values(credential).some(p)`. -/
def credentialValueMatches (p : Json → Bool) (credential : Json) : Bool :=
  credential.jsTruthy && credential.isObjectType && credential.objValues.any p

/-- Step 3 of `matchIdentity`: registration-number criterion, searched
as a case-insensitive substring across all string credential values. -/
def matchRegistrationStep (identity : Identity) (search : SearchCriteria) : Bool :=
  match search.registrationNumber with
  | none => true
  | some s =>
    if s == "" then true
    else if identity.version != "v1" then false
    else
      match identity.credentialsData with
      | none => false
      | some credentials =>
        credentials.any fun kv =>
          credentialValueMatches
            (fun v =>
              match v with
              | .str value => jsIncludes (strLower value) (strLower s)
              | _ => false)
            kv.2

/-- Step 4 of `matchIdentity`: country criterion. `resolve` models
`Intl.DisplayNames(['en'], {type: 'region'}).of`: `none` models a
thrown `RangeError` (invalid code), `some nm` a returned display name
(`some none` the `undefined` return the TS type allows). -/
def matchCountryStep (resolve : String → Option (Option String))
    (identity : Identity) (search : SearchCriteria) : Bool :=
  match search.countryCode with
  | none => true
  | some c =>
    if c == "" then true
    else if identity.version != "v1" then false
    else
      match identity.credentialsData with
      | none => false
      | some credentials =>
        match resolve (strUpper c) with
        | none => false
        | some searchName =>
          credentials.any fun kv =>
            credentialValueMatches
              (fun v =>
                match v with
                | .str value =>
                  (strUpper (strTrim value) == strUpper c) ||
                    (match searchName with
                     | some nm =>
                       nm != "" && jsIncludes (strLower (strTrim value)) (strLower nm)
                     | none => false)
                | _ => false)
              kv.2

/-- Embedding of `matchIdentity` (src/hooks.ts, lines 22-122): the four
criterion blocks each either return `false` early or fall through, so
the function is their conjunction. `resolve` abstracts the `Intl`
locale lookup used by the country step. -/
def matchIdentity (resolve : String → Option (Option String))
    (identity : Identity) (search : SearchCriteria) : Bool :=
  matchWalletStep identity search &&
  matchLegalNameStep identity search &&
  matchRegistrationStep identity search &&
  matchCountryStep resolve identity search

/-- Locale table used in concrete test inputs: resolves DE and FR,
throws on everything else (as `Intl.DisplayNames.of` does on codes that
are not well-formed region subtags). -/
def demoResolve : String → Option (Option String)
  | "DE" => some (some "Germany")
  | "FR" => some (some "France")
  | _ => none

example :
    matchIdentity demoResolve
      { walletAddress := "0xAB", legalName := some "deltaDAO AG",
        credentialsData := some [("gx:EORI",
          Json.obj [("gx:eori", Json.str "DE390726175076766"),
                    ("gx:country", Json.str "Germany")])] }
      { legalName := some "deltadao" } = true := by decide

example :
    matchIdentity demoResolve
      { walletAddress := "0xAB", legalName := some "deltaDAO AG",
        credentialsData := some [("gx:EORI",
          Json.obj [("gx:eori", Json.str "DE390726175076766"),
                    ("gx:country", Json.str "Germany")])] }
      { countryCode := some "DE" } = true := by decide

example :
    matchIdentity demoResolve
      { walletAddress := "0xAB", legalName := some "deltaDAO AG",
        credentialsData := some [("gx:EORI",
          Json.obj [("gx:eori", Json.str "DE390726175076766")])] }
      { countryCode := some "ZZZZZ" } = false := by decide

/-- Pagination metadata as returned by the registry list endpoint. -/
structure PaginationMeta where
  total : Nat
  page : Nat
  lastPage : Nat
deriving Repr

/-- Body of one page of the identities list endpoint
(`GetIdentitiesResponse`). -/
structure IdentitiesResponse where
  data : List Identity
  meta : PaginationMeta
deriving Repr

/-- Outcome of one page request as seen by `listFetcher`: a parsed
response body, or a non-success HTTP status with its status text. -/
inductive PageResult where
  | ok (resp : IdentitiesResponse)
  | httpError (status : Nat) (statusText : String)
deriving Repr

/-- The `{...identity, version: 'v1'}` spread applied to every fetched
record. -/
def tagV1 (identity : Identity) : Identity :=
  { identity with version := "v1" }

/-- Sequential determinisation of the `Promise.all` over the remaining
pages in `listFetcher`: each page is fetched, a non-success status
rejects the whole batch with the code's `Failed to fetch page N`
message, and page bodies are concatenated in page order (the order
`Promise.all` returns results in). -/
def fetchPages (server : Nat → PageResult) : List Nat → Except String (List Identity)
  | [] => Except.ok []
  | p :: rest =>
    match server p with
    | .httpError _ _ => Except.error ("Failed to fetch page " ++ toString p)
    | .ok resp =>
      match fetchPages server rest with
      | .error e => Except.error e
      | .ok restIds => Except.ok (resp.data.map tagV1 ++ restIds)

/-- Embedding of `listFetcher` (src/hooks.ts, lines 128-185): fetch
page 1, read `lastPage` from its metadata, then fetch pages
`2..lastPage` and concatenate everything. The transport is the
function `server` from page number to result (the URL/batch-size query
parameters select the page, which is what `server`'s argument models). -/
def listFetcher (server : Nat → PageResult) : Except String (List Identity) :=
  match server 1 with
  | .httpError _ txt => Except.error ("Failed to fetch registry data: " ++ txt)
  | .ok firstJson =>
    let allIdentities := firstJson.data.map tagV1
    let lastPage := firstJson.meta.lastPage
    if lastPage > 1 then
      match fetchPages server (List.range' 2 (lastPage - 1)) with
      | .error e => Except.error e
      | .ok rest => Except.ok (allIdentities ++ rest)
    else Except.ok allIdentities

/-- An HTTP response for the single-identity endpoint: status, status
text and (when relevant) the decoded identity body. -/
structure HttpResponse where
  status : Nat
  statusText : String
  body : Identity
deriving Repr

/-- Model of the WHATWG `Response.ok` flag: status in 200..299. -/
def respOk (r : HttpResponse) : Bool :=
  200 ≤ r.status && r.status < 300

/-- Embedding of `identityFetcher` (src/hooks.ts, lines 190-202):
404 throws the dedicated `Identity not found` error, any other
non-success status the generic message, success tags the body `v1`. -/
def identityFetcher (r : HttpResponse) : Except String Identity :=
  if respOk r then Except.ok (tagV1 r.body)
  else if r.status == 404 then Except.error "Identity not found"
  else Except.error ("Failed to fetch identity: " ++ r.statusText)

/-- Parsing of the legacy flat address-to-name mapping: each entry
becomes a deprecated identity tagged `0.x` (body of
`deprecatedFetcher`'s `Object.entries(json).map`). -/
def parseDeprecated (entries : List (String × String)) : List Identity :=
  entries.map fun kv =>
    { walletAddress := kv.1, legalName := some kv.2,
      version := "0.x", credentialsData := none }

/-- Outcome of the legacy registry request. -/
inductive FlatResult where
  | ok (entries : List (String × String))
  | httpError (status : Nat) (statusText : String)
deriving Repr

/-- Embedding of `deprecatedFetcher` (src/hooks.ts, lines 207-218). -/
def deprecatedFetcher : FlatResult → Except String (List Identity)
  | .ok entries => Except.ok (parseDeprecated entries)
  | .httpError _ _ => Except.error "Failed to fetch deprecated registry"

/-- The hook configuration fields that influence the combination logic
(`includeDeprecated`, `search`); URL/batch options are absorbed by the
abstract transport. -/
structure RegistryConfig where
  includeDeprecated : Bool := false
  search : Option SearchCriteria := none

/-- The merge branch of `combinedData` (src/hooks.ts, lines 282-291):
collect the lowercased primary addresses, keep only legacy entries
whose lowercased address is not among them, and append them after the
primary entries. -/
def mergeDeprecated (currentData deprecatedData : List Identity) : List Identity :=
  let currentAddresses := currentData.map fun id => strLower id.walletAddress
  let uniqueDeprecated := deprecatedData.filter
    fun id => !(currentAddresses.contains (strLower id.walletAddress))
  currentData ++ uniqueDeprecated

/-- Embedding of the `combinedData` memo of `usePontusXRegistry`
(src/hooks.ts, lines 276-302). `primaryData`/`deprecatedData` are the
two SWR `data` fields (`none` = still `undefined`); an empty JS array
is truthy, so only `undefined` legacy data selects the first branch. -/
def combinedData (resolve : String → Option (Option String))
    (config : RegistryConfig)
    (primaryData deprecatedData : Option (List Identity)) : List Identity :=
  let result :=
    if !config.includeDeprecated || deprecatedData.isNone then
      primaryData.getD []
    else
      mergeDeprecated (primaryData.getD []) (deprecatedData.getD [])
  match config.search with
  | some s => result.filter fun identity => matchIdentity resolve identity s
  | none => result

/-- The slice of an SWR response consumed by the combination logic. -/
structure SwrListState where
  data : Option (List Identity) := none
  isLoading : Bool := false
  error : Option String := none
deriving Repr

/-- The state object `usePontusXRegistry` returns to its caller. -/
structure RegistryHookState where
  data : Option (List Identity)
  isLoading : Bool
  error : Option String
deriving Repr

/-- Embedding of the return value of `usePontusXRegistry`
(src/hooks.ts, lines 304-313), as a function of the primary and legacy
SWR states: `data` is the memoised combination (always an array in the
code, modelled as `some`), `isLoading` and `error` follow the JS
`||`/`&&` combinations (a falsy `error` expression is `none`). -/
def usePontusXRegistry (resolve : String → Option (Option String))
    (config : RegistryConfig)
    (primary deprecated : SwrListState) : RegistryHookState :=
  { data := some (combinedData resolve config primary.data deprecated.data),
    isLoading := primary.isLoading ||
      (config.includeDeprecated && deprecated.isLoading),
    error :=
      match primary.error with
      | some e => some e
      | none => if config.includeDeprecated then deprecated.error else none }

/-- JS truthiness of an optional string (`undefined`, `null` and `""`
are falsy). -/
def jsStrOptTruthy : Option String → Bool
  | none => false
  | some s => s != ""

/-- Replacement of the first occurrence of `pat` in a character list by
`rep` (JS `String.prototype.replace` with a string pattern replaces
only the first occurrence). -/
def replaceFirst : List Char → List Char → List Char → List Char
  | [], _, _ => []
  | c :: cs, pat, rep =>
    if charsStartWith (c :: cs) pat then rep ++ (c :: cs).drop pat.length
    else c :: replaceFirst cs pat rep

/-- String wrapper for `replaceFirst`. -/
def strReplaceFirst (s pat rep : String) : String :=
  String.mk (replaceFirst s.data pat.data rep.data)

/-- The v1 single-identity path template (`API_VERSIONS.v1.identity`). -/
def identityPathTemplate : String :=
  "/identities/:contractAddress/:walletAddress"

/-- Embedding of the `apiUrl` memo of `usePontusXIdentityByContract`
(src/hooks.ts, lines 387-395): a JS-falsy contract or wallet address
yields `null` (no URL); otherwise both are substituted into the path
template and resolved against the base URL (modelled as
concatenation, since the template is an absolute path). -/
def buildIdentityUrl (baseUrl : String)
    (contractAddress walletAddress : Option String) : Option String :=
  if jsStrOptTruthy contractAddress && jsStrOptTruthy walletAddress then
    some (baseUrl ++
      strReplaceFirst
        (strReplaceFirst identityPathTemplate ":contractAddress"
          (contractAddress.getD ""))
        ":walletAddress" (walletAddress.getD ""))
  else none

/-- The slice of the single-identity SWR response the hook consumes. -/
structure SwrIdentityState where
  data : Option Identity
  isLoading : Bool
  error : Option String
deriving Repr

/-- Modelled from the spec: the external cache/dedup collaborator (SWR,
spec section 6) -- the repository only configures it. An absent key
(`null` in JS) issues no fetch at all and leaves the state empty with
`isLoading` false; a present key runs the fetcher on it and the settled
outcome fills `data` or `error`. Only settled states are modelled. -/
def useSWRIdentity (key : Option String)
    (fetcher : String → Except String Identity) : SwrIdentityState :=
  match key with
  | none => { data := none, isLoading := false, error := none }
  | some k =>
    match fetcher k with
    | Except.ok v => { data := some v, isLoading := false, error := none }
    | Except.error e => { data := none, isLoading := false, error := some e }

/-- The state object `usePontusXIdentityByContract` returns. -/
structure IdentityHookState where
  identity : Option Identity
  isLoading : Bool
  error : Option String
  isFound : Bool
  legalName : Option String
deriving Repr

/-- Embedding of `usePontusXIdentityByContract` (src/hooks.ts, lines
376-416): build the URL (or `null`), hand it to the cache collaborator
with `identityFetcher`, and project the returned fields
(`isFound := data !== undefined`, `legalName := identity?.legalName`). -/
def usePontusXIdentityByContract (baseUrl : String)
    (contractAddress walletAddress : Option String)
    (fetcher : String → Except String Identity) : IdentityHookState :=
  let swr := useSWRIdentity
    (buildIdentityUrl baseUrl contractAddress walletAddress) fetcher
  { identity := swr.data,
    isLoading := swr.isLoading,
    error := swr.error,
    isFound := swr.data.isSome,
    legalName := swr.data.bind Identity.legalName }

/-- A registry server that serves a fixed record list in pages of
`batchSize`: page `p` holds records `(p-1)*batchSize ..` (at most
`batchSize` of them), and every page's metadata reports the correct
ceiling last-page number, as the claims' pagination hypothesis asks. -/
def chunkPage (records : List Identity) (batchSize page : Nat) : List Identity :=
  (records.drop ((page - 1) * batchSize)).take batchSize

/-- The well-paginated server used to state the aggregation claims. -/
def pagedServer (records : List Identity) (batchSize : Nat) : Nat → PageResult :=
  fun page =>
    PageResult.ok
      { data := chunkPage records batchSize page,
        meta := { total := records.length, page := page,
                  lastPage := (records.length + batchSize - 1) / batchSize } }

/-- Arithmetic fact for the page plan: the ceiling page count times the
batch size covers all records. -/
theorem le_ceil_pages_mul (R N : Nat) (hN : 0 < N) :
    R ≤ (R + N - 1) / N * N := by
  have h := Nat.div_add_mod (R + N - 1) N
  have h2 : (R + N - 1) % N < N := Nat.mod_lt _ hN
  rw [Nat.mul_comm]
  generalize hq : (R + N - 1) / N = q at h
  generalize hr : (R + N - 1) % N = r at h h2
  generalize hA : N * q = A at h ⊢
  omega

/-- Fetching any page list against the well-paginated server succeeds
and yields the corresponding tagged chunks in order. -/
theorem fetchPages_pagedServer (L : List Identity) (N : Nat) (ps : List Nat) :
    fetchPages (pagedServer L N) ps =
      Except.ok ((ps.flatMap fun p => chunkPage L N p).map tagV1) := by
  induction ps with
  | nil => simp [fetchPages]
  | cons p rest ih => simp [fetchPages, pagedServer, ih, List.map_append]

/-- Concatenating the chunks of pages `s, s+1, ..., s+k-1` recovers the
contiguous slice of the record list they cover. -/
theorem bind_chunkPage_range' (L : List Identity) (N : Nat) :
    ∀ (k t : Nat),
      ((List.range' (t + 1) k).flatMap fun p => chunkPage L N p) =
        (L.drop (t * N)).take (k * N) := by
  intro k
  induction k with
  | zero => intro t; simp
  | succ k ih =>
    intro t
    rw [List.range'_succ]
    simp only [List.flatMap_cons]
    rw [ih (t + 1)]
    have hchunk : chunkPage L N (t + 1) = (L.drop (t * N)).take N := by
      simp [chunkPage]
    rw [hchunk]
    have hmul : (k + 1) * N = N + k * N := by ring
    rw [hmul, List.take_add, List.drop_drop]
    have hmul2 : t * N + N = (t + 1) * N := by ring
    rw [hmul2]

/-- C1. For every page size `N > 0` and every record list served by a
registry whose pages partition the records with correct last-page
metadata, `listFetcher` aggregates every record from every page exactly
once -- the result is exactly the (v1-tagged) record list, so in
particular it has exactly `R = L.length` records. -/
theorem listFetcher_aggregates_all_pages (L : List Identity) (N : Nat)
    (hN : 0 < N) :
    listFetcher (pagedServer L N) = Except.ok (L.map tagV1) ∧
    ∀ out, listFetcher (pagedServer L N) = Except.ok out →
      out.length = L.length := by
  have hmain : listFetcher (pagedServer L N) = Except.ok (L.map tagV1) := by
    rw [listFetcher]
    simp only [pagedServer]
    have hchunk1 : chunkPage L N 1 = L.take N := by simp [chunkPage]
    by_cases hlp : (L.length + N - 1) / N > 1
    · simp only [hlp, if_pos, hchunk1]
      simp only [fetchPages_pagedServer]
      have h2 : (2 : Nat) = 1 + 1 := rfl
      rw [h2, bind_chunkPage_range' L N _ 1, Nat.one_mul]
      rw [← List.map_append]
      have hcover : L.take N ++ (L.drop N).take
          (((L.length + N - 1) / N - 1) * N) = L := by
        rw [← List.take_add]
        have hle : L.length ≤ N + ((L.length + N - 1) / N - 1) * N := by
          have hmul : N + ((L.length + N - 1) / N - 1) * N =
              (L.length + N - 1) / N * N := by
            obtain ⟨m, hm⟩ : ∃ m, (L.length + N - 1) / N = m + 1 :=
              ⟨(L.length + N - 1) / N - 1, by omega⟩
            rw [hm, Nat.add_sub_cancel]
            ring
          rw [hmul]
          exact le_ceil_pages_mul L.length N hN
        exact List.take_of_length_le hle
      rw [hcover]
    · simp only [hlp, if_neg, not_false_iff]
      have hRN : L.length ≤ N := by
        by_contra hcon
        push_neg at hcon
        have h2 : 2 ≤ (L.length + N - 1) / N :=
          (Nat.le_div_iff_mul_le hN).mpr (by omega)
        omega
      rw [hchunk1, List.take_of_length_le hRN]
  refine ⟨hmain, fun out hout => ?_⟩
  rw [hmain] at hout
  cases hout
  simp

/-- Three concrete records used for evaluating the theorems. -/
def demoRecords : List Identity :=
  [{ walletAddress := "0xAA", legalName := some "Entity A" },
   { walletAddress := "0xBB", legalName := some "Entity B" },
   { walletAddress := "0xCC", legalName := some "Entity C" }]

/-- C1 witness: three records served with page size two (two pages)
aggregate to the full record list. -/
theorem listFetcher_aggregates_all_pages_witness :
    0 < 2 ∧ listFetcher (pagedServer demoRecords 2) =
      Except.ok (demoRecords.map tagV1) :=
  ⟨by decide, (listFetcher_aggregates_all_pages demoRecords 2 (by decide)).1⟩

/-- If some requested page fails, the whole batch fetch fails, and the
surfaced error is the `Failed to fetch page N` error of a failing page. -/
theorem fetchPages_error_of_failing_page (server : Nat → PageResult) :
    ∀ ps : List Nat,
      (∃ p ∈ ps, ∃ st txt, server p = PageResult.httpError st txt) →
      ∃ q ∈ ps, (∃ st txt, server q = PageResult.httpError st txt) ∧
        fetchPages server ps =
          Except.error ("Failed to fetch page " ++ toString q) := by
  intro ps
  induction ps with
  | nil => rintro ⟨p, hp, _⟩; cases hp
  | cons a rest ih =>
    rintro ⟨p, hp, st, txt, herr⟩
    cases ha : server a with
    | httpError st' txt' =>
      exact ⟨a, List.mem_cons_self a rest, ⟨st', txt', ha⟩,
        by simp [fetchPages, ha]⟩
    | ok resp =>
      have hrest : ∃ p ∈ rest, ∃ st txt,
          server p = PageResult.httpError st txt := by
        rcases List.mem_cons.mp hp with rfl | hmem
        · rw [ha] at herr; exact absurd herr (by simp)
        · exact ⟨p, hmem, st, txt, herr⟩
      obtain ⟨q, hq, hqe, hfp⟩ := ih hrest
      refine ⟨q, List.mem_cons_of_mem _ hq, hqe, ?_⟩
      simp [fetchPages, ha, hfp]

/-- C6 (amended). A failing page fails the whole aggregation -- no
partial result -- and the error identifies the failing request: a
first-page failure carries the status text, a later-page failure
carries the failing page number (not the status). -/
theorem listFetcher_all_or_nothing (server : Nat → PageResult) :
    (∀ st txt, server 1 = PageResult.httpError st txt →
       listFetcher server =
         Except.error ("Failed to fetch registry data: " ++ txt)) ∧
    (∀ first, server 1 = PageResult.ok first →
       (∃ p ∈ List.range' 2 (first.meta.lastPage - 1),
          ∃ st txt, server p = PageResult.httpError st txt) →
       ∃ q ∈ List.range' 2 (first.meta.lastPage - 1),
         (∃ st txt, server q = PageResult.httpError st txt) ∧
         listFetcher server =
           Except.error ("Failed to fetch page " ++ toString q)) := by
  constructor
  · intro st txt h1
    rw [listFetcher, h1]
  · intro first h1 hex
    obtain ⟨q, hq, hqe, hfp⟩ := fetchPages_error_of_failing_page server _ hex
    refine ⟨q, hq, hqe, ?_⟩
    rw [listFetcher, h1]
    have hlp : first.meta.lastPage > 1 := by
      obtain ⟨p, hp, _⟩ := hex
      have hne := List.ne_nil_of_mem hp
      have hlen : 0 < (List.range' 2 (first.meta.lastPage - 1)).length :=
        List.length_pos.mpr hne
      rw [List.length_range'] at hlen
      omega
    simp [hlp, hfp]

/-- A server whose second page returns HTTP 500 while pages 1 and 3
succeed (three pages announced). -/
def failingPageServer : Nat → PageResult :=
  fun p =>
    if p = 2 then PageResult.httpError 500 "Internal Server Error"
    else PageResult.ok { data := [], meta := { total := 0, page := p, lastPage := 3 } }

/-- C6 counterexample: when page 2 fails with status 500 (`Internal
Server Error`), the aggregation error does carry the page number but
carries neither the numeric status nor the status text, refuting the
claim that the error carries both the page number and the status. -/
theorem listFetcher_error_lacks_status_counterexample :
    listFetcher failingPageServer = Except.error "Failed to fetch page 2" ∧
    jsIncludes "Failed to fetch page 2" "500" = false ∧
    jsIncludes "Failed to fetch page 2" "Internal Server Error" = false := by
  refine ⟨rfl, by decide, by decide⟩

/-- C6 witness: the amended theorem evaluated on `failingPageServer`. -/
theorem listFetcher_all_or_nothing_witness :
    ∃ q ∈ List.range' 2 2,
      (∃ st txt, failingPageServer q = PageResult.httpError st txt) ∧
      listFetcher failingPageServer =
        Except.error ("Failed to fetch page " ++ toString q) :=
  (listFetcher_all_or_nothing failingPageServer).2
    { data := [], meta := { total := 0, page := 1, lastPage := 3 } } rfl
    ⟨2, by decide, 500, "Internal Server Error", rfl⟩

/-- C7. The single-identity fetcher: success returns the v1-tagged
body, HTTP 404 fails with the dedicated `Identity not found` error,
every other non-success status fails with the generic
`Failed to fetch identity` error, and the 404 error is distinguishable
from every generic error (they are never the same value). -/
theorem identityFetcher_status_dispatch (r : HttpResponse) :
    (respOk r = true → identityFetcher r = Except.ok (tagV1 r.body)) ∧
    (respOk r = false → r.status = 404 →
       identityFetcher r = Except.error "Identity not found") ∧
    (respOk r = false → r.status ≠ 404 →
       identityFetcher r =
         Except.error ("Failed to fetch identity: " ++ r.statusText)) ∧
    (∀ txt, "Identity not found" ≠ "Failed to fetch identity: " ++ txt) := by
  refine ⟨?_, ?_, ?_, ?_⟩
  · intro h; simp [identityFetcher, h]
  · intro h h4; simp [identityFetcher, h, h4]
  · intro h h4; simp [identityFetcher, h, h4]
  · intro txt h
    have h2 := congrArg String.length h
    rw [String.length_append] at h2
    have e1 : ("Identity not found" : String).length = 18 := rfl
    have e2 : ("Failed to fetch identity: " : String).length = 26 := rfl
    rw [e1, e2] at h2
    omega

/-- C7 witness: the dispatch theorem evaluated at statuses 404, 500
and 200. -/
theorem identityFetcher_status_dispatch_witness :
    identityFetcher { status := 404, statusText := "Not Found",
                      body := { walletAddress := "0xAA" } } =
      Except.error "Identity not found" ∧
    identityFetcher { status := 500, statusText := "Internal Server Error",
                      body := { walletAddress := "0xAA" } } =
      Except.error ("Failed to fetch identity: " ++ "Internal Server Error") ∧
    identityFetcher { status := 200, statusText := "OK",
                      body := { walletAddress := "0xAA" } } =
      Except.ok (tagV1 { walletAddress := "0xAA" }) :=
  ⟨(identityFetcher_status_dispatch _).2.1 (by decide) (by decide),
   (identityFetcher_status_dispatch _).2.2.1 (by decide) (by decide),
   (identityFetcher_status_dispatch _).1 (by decide)⟩

/-- No two entries of the list share a case-normalized wallet address
(the spec's aggregated-result invariant). -/
def DistinctAddrs (l : List Identity) : Prop :=
  l.Pairwise fun a b => strLower a.walletAddress ≠ strLower b.walletAddress

instance (l : List Identity) : Decidable (DistinctAddrs l) := by
  unfold DistinctAddrs
  infer_instance

/-- On an address-distinct list, filtering for one case-normalized
address returns exactly the one matching element. -/
theorem filter_addr_singleton (X : String) :
    ∀ P : List Identity, DistinctAddrs P →
      ∀ p ∈ P, strLower p.walletAddress = strLower X →
      P.filter (fun e => strLower e.walletAddress == strLower X) = [p] := by
  intro P
  induction P with
  | nil => intro _ p hp; cases hp
  | cons a rest ih =>
    intro hPf p hp hpx
    unfold DistinctAddrs at hPf
    rw [List.pairwise_cons] at hPf
    rcases List.mem_cons.mp hp with rfl | hmem
    · rw [List.filter_cons_of_pos (by simp [hpx])]
      have hrest : rest.filter
          (fun e => strLower e.walletAddress == strLower X) = [] := by
        rw [List.filter_eq_nil_iff]
        intro b hb hbeq
        rw [beq_iff_eq] at hbeq
        exact (hPf.1 b hb) (hpx.trans hbeq.symm)
      rw [hrest]
    · have hane : strLower a.walletAddress ≠ strLower X := by
        intro hax
        exact (hPf.1 p hmem) (hax.trans hpx.symm)
      rw [List.filter_cons_of_neg (by simp [hane]), ih hPf.2 p hmem hpx]

/-- C2 (amended). If the primary result set has no case-normalized
duplicate addresses, then for every address `X` present in the primary
set (via the entry `p`) and also present in the legacy set, the merged
output contains exactly one entry whose address case-insensitively
equals `X`, and that entry is the primary entry `p`, never a legacy
entry. -/
theorem mergeDeprecated_primary_precedence (P L : List Identity) (X : String)
    (hP : DistinctAddrs P)
    (p : Identity) (hpP : p ∈ P)
    (hpX : strLower p.walletAddress = strLower X)
    (_hLX : ∃ l ∈ L, strLower l.walletAddress = strLower X) :
    (mergeDeprecated P L).filter
        (fun e => strLower e.walletAddress == strLower X) = [p] := by
  unfold mergeDeprecated
  rw [List.filter_append]
  have hfL : (L.filter fun id =>
        !((P.map fun id => strLower id.walletAddress).contains
          (strLower id.walletAddress))).filter
      (fun e => strLower e.walletAddress == strLower X) = [] := by
    rw [List.filter_eq_nil_iff]
    intro b hb hbeq
    rw [beq_iff_eq] at hbeq
    rw [List.mem_filter] at hb
    have hmem : strLower b.walletAddress ∈
        P.map fun id => strLower id.walletAddress :=
      List.mem_map.mpr ⟨p, hpP, hpX.trans hbeq.symm⟩
    have hcontains := hb.2
    simp at hcontains
    obtain ⟨e, he, heq⟩ := List.mem_map.mp hmem
    exact absurd heq (hcontains e he)
  rw [hfL, List.append_nil]
  exact filter_addr_singleton X P hP p hpP hpX

/-- Two primary entries that share the address `0xAB` up to case. -/
def primaryDupPair : List Identity :=
  [{ walletAddress := "0xAB", legalName := some "Entity One" },
   { walletAddress := "0xab", legalName := some "Entity Two" }]

/-- A legacy set also holding address `0xAB` (different case). -/
def legacyABList : List Identity :=
  parseDeprecated [("0xaB", "Legacy Entity")]

/-- C2 counterexample: with `0xAB` present (case-insensitively) in both
the primary and the legacy set, the merged output contains two entries
for that address, not exactly one -- the code never deduplicates within
the primary set. -/
theorem mergeDeprecated_primary_precedence_counterexample :
    (∃ p ∈ primaryDupPair, strLower p.walletAddress = strLower "0xAB") ∧
    (∃ l ∈ legacyABList, strLower l.walletAddress = strLower "0xAB") ∧
    ((mergeDeprecated primaryDupPair legacyABList).filter
        (fun e => strLower e.walletAddress == strLower "0xAB")).length = 2 := by
  decide

/-- The primary entry used in the merge witnesses. -/
def primaryDemoHead : Identity :=
  { walletAddress := "0xe0d15ab8", legalName := some "deltaDAO AG",
    credentialsData := some [("gx:EORI",
      Json.obj [("gx:eori", Json.str "DE390726175076766"),
                ("gx:country", Json.str "Germany")])] }

/-- A one-entry primary result set. -/
def primaryDemo : List Identity := [primaryDemoHead]

/-- The legacy entry sharing `primaryDemoHead`'s address up to case. -/
def legacyDemoHead : Identity :=
  { walletAddress := "0xE0D15AB8", legalName := some "Old deltaDAO Name",
    version := "0.x" }

/-- A legacy result set overlapping `primaryDemo` on one address. -/
def legacyDemo : List Identity :=
  [legacyDemoHead,
   { walletAddress := "0xdeprecated1", legalName := some "Deprecated Entity 1",
     version := "0.x" }]

/-- C2 witness: merging the demo sets keeps exactly the primary entry
for the shared address. -/
theorem mergeDeprecated_primary_precedence_witness :
    DistinctAddrs primaryDemo ∧
    (mergeDeprecated primaryDemo legacyDemo).filter
        (fun e => strLower e.walletAddress == strLower "0xE0D15AB8") =
      [primaryDemoHead] :=
  ⟨by decide,
   mergeDeprecated_primary_precedence primaryDemo legacyDemo "0xE0D15AB8"
     (by decide) primaryDemoHead (List.mem_cons_self _ _) (by decide)
     ⟨legacyDemoHead, List.mem_cons_self _ _, by decide⟩⟩

/-- C3 (amended). If the primary set and the legacy set are each free
of case-normalized duplicate addresses, then so is the merged output:
the merge itself never introduces a duplicate, since every surviving
legacy entry has an address absent from the primary set. -/
theorem mergeDeprecated_no_duplicate_addresses (P L : List Identity)
    (hP : DistinctAddrs P) (hL : DistinctAddrs L) :
    DistinctAddrs (mergeDeprecated P L) := by
  unfold DistinctAddrs at *
  unfold mergeDeprecated
  rw [List.pairwise_append]
  refine ⟨hP, hL.sublist (List.filter_sublist L), ?_⟩
  intro a ha b hb hEq
  rw [List.mem_filter] at hb
  have hmem : strLower b.walletAddress ∈
      P.map fun id => strLower id.walletAddress :=
    List.mem_map.mpr ⟨a, ha, hEq⟩
  have hcontains := hb.2
  simp at hcontains
  obtain ⟨e, he, heq⟩ := List.mem_map.mp hmem
  exact absurd heq (hcontains e he)

/-- C3 counterexample: a legacy flat mapping with two distinct keys
that differ only in case produces two merged entries with the same
case-normalized wallet address, so the merged result is not
duplicate-free in general (legacy entries are only deduplicated
against the primary set, not against each other). -/
theorem mergeDeprecated_no_duplicate_addresses_counterexample :
    ¬ DistinctAddrs (mergeDeprecated []
      (parseDeprecated [("0xAB", "Dup Entity A"), ("0xab", "Dup Entity B")])) := by
  decide

/-- C3 witness: duplicate-free demo inputs merge to a duplicate-free
output. -/
theorem mergeDeprecated_no_duplicate_addresses_witness :
    DistinctAddrs primaryDemo ∧ DistinctAddrs legacyDemo ∧
    DistinctAddrs (mergeDeprecated primaryDemo legacyDemo) :=
  ⟨by decide, by decide,
   mergeDeprecated_no_duplicate_addresses primaryDemo legacyDemo
     (by decide) (by decide)⟩

/-- Country-criterion predicate written from the spec's words (for
refinement comparison with `matchCountryStep`): some string value among
all credential objects either case-insensitively exactly equals the
code, or case-insensitively contains the resolved display name; an
unresolvable code matches nothing. The spec's words say nothing about
whitespace-trimming the credential value. -/
def countryCriterionSpec (resolve : String → Option (Option String))
    (identity : Identity) (code : String) : Bool :=
  match resolve (strUpper code) with
  | none => false
  | some nameOpt =>
    (identity.version == "v1") &&
    (match identity.credentialsData with
     | none => false
     | some credentials =>
       credentials.any fun kv =>
         credentialValueMatches
           (fun v =>
             match v with
             | .str value =>
               (strLower value == strLower code) ||
                 (match nameOpt with
                  | some nm => jsIncludes (strLower value) (strLower nm)
                  | none => false)
             | _ => false)
           kv.2)

/-- A v1 identity whose only credential value is `" DE "` -- the
country code surrounded by whitespace. -/
def trimIdentity : Identity :=
  { walletAddress := "0xAB", legalName := some "Entity T",
    credentialsData := some [("gx:legalAddress",
      Json.obj [("gx:countrySubdivisionCode", Json.str " DE ")])] }

/-- C4 counterexample: the code resolves `DE` (to `Germany`), the
matcher accepts the identity whose credential value is `" DE "`
(because it trims the value before comparing), yet the claim's
predicate rejects it: the value neither case-insensitively equals
`"DE"` nor contains `"Germany"`. -/
theorem matchIdentity_country_counterexample :
    demoResolve (strUpper "DE") = some (some "Germany") ∧
    matchIdentity demoResolve trimIdentity { countryCode := some "DE" } = true ∧
    countryCriterionSpec demoResolve trimIdentity "DE" = false := by
  refine ⟨rfl, by decide, by decide⟩

/-- A credential scan is true exactly when some truthy object-typed
credential has a string value satisfying the value predicate. -/
theorem credentialScan_eq_true (creds : List (String × Json)) (q : String → Bool) :
    (creds.any fun kv =>
       credentialValueMatches
         (fun v => match v with | Json.str s => q s | _ => false) kv.2) = true ↔
    ∃ kv ∈ creds, (kv.2).jsTruthy = true ∧ (kv.2).isObjectType = true ∧
      ∃ s, Json.str s ∈ (kv.2).objValues ∧ q s = true := by
  rw [List.any_eq_true]
  constructor
  · rintro ⟨kv, hkv, hmatch⟩
    unfold credentialValueMatches at hmatch
    rw [Bool.and_eq_true, Bool.and_eq_true] at hmatch
    obtain ⟨⟨ht, ho⟩, hany⟩ := hmatch
    rw [List.any_eq_true] at hany
    obtain ⟨v, hv, hq⟩ := hany
    cases v with
    | str s => exact ⟨kv, hkv, ht, ho, s, hv, hq⟩
    | null => simp at hq
    | bool b => simp at hq
    | num n => simp at hq
    | arr es => simp at hq
    | obj fs => simp at hq
  · rintro ⟨kv, hkv, ht, ho, s, hs, hq⟩
    refine ⟨kv, hkv, ?_⟩
    unfold credentialValueMatches
    rw [Bool.and_eq_true, Bool.and_eq_true, List.any_eq_true]
    exact ⟨⟨ht, ho⟩, Json.str s, hs, hq⟩

/-- C4 (amended). For a non-empty country-code criterion: if the code
does not resolve, nothing matches; if it resolves, an identity matches
iff it is a v1 identity and some string value inside some (truthy,
object-typed) credential object, after trimming surrounding
whitespace, either case-insensitively equals the code or
case-insensitively contains the (non-empty) resolved display name. -/
theorem matchIdentity_country_characterization
    (resolve : String → Option (Option String)) (identity : Identity)
    (code : String) (hc : code ≠ "") :
    (resolve (strUpper code) = none →
      matchIdentity resolve identity { countryCode := some code } = false) ∧
    (∀ nameOpt, resolve (strUpper code) = some nameOpt →
      (matchIdentity resolve identity { countryCode := some code } = true ↔
        (identity.version = "v1" ∧
         ∃ creds, identity.credentialsData = some creds ∧
         ∃ kv ∈ creds, (kv.2).jsTruthy = true ∧ (kv.2).isObjectType = true ∧
         ∃ s, Json.str s ∈ (kv.2).objValues ∧
           (strUpper (strTrim s) = strUpper code ∨
            ∃ nm, nameOpt = some nm ∧ nm ≠ "" ∧
              jsIncludes (strLower (strTrim s)) (strLower nm) = true)))) := by
  have hcb : (code == "") = false := by simp [hc]
  constructor
  · intro hres
    simp only [matchIdentity, matchWalletStep, matchLegalNameStep,
               matchRegistrationStep, matchCountryStep, Bool.true_and, hcb,
               Bool.false_eq_true, if_false, hres]
    split
    · rfl
    · split <;> rfl
  · intro nameOpt hres
    simp only [matchIdentity, matchWalletStep, matchLegalNameStep,
               matchRegistrationStep, matchCountryStep, Bool.true_and, hcb,
               Bool.false_eq_true, if_false, hres]
    by_cases hv : identity.version = "v1"
    · have hvb : (identity.version != "v1") = false := by simp [hv]
      rw [hvb]
      simp only [Bool.false_eq_true, if_false]
      cases hcd : identity.credentialsData with
      | none => simp
      | some creds =>
        rw [credentialScan_eq_true]
        cases nameOpt with
        | none =>
          simp [hv, Bool.or_eq_true, beq_iff_eq]
        | some nm =>
          simp [hv, Bool.or_eq_true, Bool.and_eq_true, beq_iff_eq, bne_iff_ne]
    · have hvb : (identity.version != "v1") = true := by simp [hv]
      rw [hvb]
      simp [hv]

/-- C4 witness: the characterization evaluated on `trimIdentity` with
an unresolvable code (no match) and with `DE` (match via trimming). -/
theorem matchIdentity_country_characterization_witness :
    matchIdentity demoResolve trimIdentity { countryCode := some "ZZZZZ" } = false ∧
    matchIdentity demoResolve trimIdentity { countryCode := some "DE" } = true :=
  ⟨(matchIdentity_country_characterization demoResolve trimIdentity "ZZZZZ"
      (by decide)).1 rfl,
   ((matchIdentity_country_characterization demoResolve trimIdentity "DE"
      (by decide)).2 (some "Germany") rfl).mpr
     ⟨rfl, _, rfl,
      ⟨("gx:legalAddress",
        Json.obj [("gx:countrySubdivisionCode", Json.str " DE ")]),
       List.mem_cons_self _ _, rfl, rfl, " DE ", List.mem_cons_self _ _,
       Or.inl (by decide)⟩⟩⟩

/-- C5. The match evaluator is a total boolean predicate (the
embedding is a total Lean function; the JS function only branches over
values it has checked, and its one exception source -- the locale
lookup -- is caught and turned into `false`), and unmatchable criteria
yield `false` rather than an error: a non-empty legal-name criterion
against a null legal name, a non-empty registration-number or country
criterion against a legacy (non-v1) identity or absent credential
data, and an unresolvable country code. -/
theorem matchIdentity_total_and_unmatchable_false
    (resolve : String → Option (Option String))
    (identity : Identity) (search : SearchCriteria) :
    (matchIdentity resolve identity search = true ∨
     matchIdentity resolve identity search = false) ∧
    (∀ s, search.legalName = some s → s ≠ "" → identity.legalName = none →
      matchIdentity resolve identity search = false) ∧
    (∀ s, search.registrationNumber = some s → s ≠ "" →
      identity.version ≠ "v1" →
      matchIdentity resolve identity search = false) ∧
    (∀ s, search.registrationNumber = some s → s ≠ "" →
      identity.credentialsData = none →
      matchIdentity resolve identity search = false) ∧
    (∀ c, search.countryCode = some c → c ≠ "" → identity.version ≠ "v1" →
      matchIdentity resolve identity search = false) ∧
    (∀ c, search.countryCode = some c → c ≠ "" →
      resolve (strUpper c) = none →
      matchIdentity resolve identity search = false) := by
  refine ⟨Bool.eq_false_or_eq_true _, ?_, ?_, ?_, ?_, ?_⟩
  · intro s hs hne hnull
    have hstep : matchLegalNameStep identity search = false := by
      simp [matchLegalNameStep, hs, hne, hnull]
    simp [matchIdentity, hstep]
  · intro s hs hne hv
    have hstep : matchRegistrationStep identity search = false := by
      simp [matchRegistrationStep, hs, hne, hv]
    simp [matchIdentity, hstep]
  · intro s hs hne hcd
    have hstep : matchRegistrationStep identity search = false := by
      simp [matchRegistrationStep, hs, hne, hcd]
    simp [matchIdentity, hstep]
  · intro c hc hne hv
    have hstep : matchCountryStep resolve identity search = false := by
      simp [matchCountryStep, hc, hne, hv]
    simp [matchIdentity, hstep]
  · intro c hc hne hres
    have hstep : matchCountryStep resolve identity search = false := by
      simp [matchCountryStep, hc, hne, hres]
      split <;> simp [hres]
    simp [matchIdentity, hstep]

/-- C5 witness: each unmatchable-criterion case evaluated on concrete
identities. -/
theorem matchIdentity_total_and_unmatchable_false_witness :
    matchIdentity demoResolve { walletAddress := "0xAA" }
      { legalName := some "delta" } = false ∧
    matchIdentity demoResolve legacyDemoHead
      { registrationNumber := some "123" } = false ∧
    matchIdentity demoResolve { walletAddress := "0xAA" }
      { registrationNumber := some "123" } = false ∧
    matchIdentity demoResolve legacyDemoHead
      { countryCode := some "DE" } = false ∧
    matchIdentity demoResolve primaryDemoHead
      { countryCode := some "ZZZZZ" } = false :=
  ⟨(matchIdentity_total_and_unmatchable_false demoResolve _ _).2.1
      "delta" rfl (by decide) rfl,
   (matchIdentity_total_and_unmatchable_false demoResolve _ _).2.2.1
      "123" rfl (by decide) (by decide),
   (matchIdentity_total_and_unmatchable_false demoResolve _ _).2.2.2.1
      "123" rfl (by decide) rfl,
   (matchIdentity_total_and_unmatchable_false demoResolve _ _).2.2.2.2.1
      "DE" rfl (by decide) (by decide),
   (matchIdentity_total_and_unmatchable_false demoResolve _ _).2.2.2.2.2
      "ZZZZZ" rfl (by decide) rfl⟩

/-- C8 counterexample: when both sources fail, the hook's returned
state is identical to the state of a run where the legacy source
reported no error at all -- the single combined error field holds only
the primary error, so the legacy error is not exposed to the caller. -/
theorem registry_error_independence_counterexample :
    usePontusXRegistry demoResolve { includeDeprecated := true }
        { data := none, isLoading := false, error := some "primary fetch failed" }
        { data := none, isLoading := false, error := some "legacy fetch failed" } =
      usePontusXRegistry demoResolve { includeDeprecated := true }
        { data := none, isLoading := false, error := some "primary fetch failed" }
        { data := none, isLoading := false, error := none } ∧
    (usePontusXRegistry demoResolve { includeDeprecated := true }
        { data := none, isLoading := false, error := some "primary fetch failed" }
        { data := none, isLoading := false, error := some "legacy fetch failed" }).error =
      some "primary fetch failed" := by
  exact ⟨rfl, rfl⟩

/-- C8 (amended). A failing legacy source (legacy data absent) never
prevents the primary result: the hook still returns the (search
filtered) primary data. The errors are combined into one field, not
exposed independently: it reports the primary error when present, and
only otherwise -- when deprecated data was requested -- the legacy
error. -/
theorem registry_legacy_failure_degrades
    (resolve : String → Option (Option String)) (config : RegistryConfig)
    (primary legacy : SwrListState) (hleg : legacy.data = none) :
    (usePontusXRegistry resolve config primary legacy).data =
      some (match config.search with
            | some s => (primary.data.getD []).filter
                fun i => matchIdentity resolve i s
            | none => primary.data.getD []) ∧
    (usePontusXRegistry resolve config primary legacy).error =
      (match primary.error with
       | some e => some e
       | none => if config.includeDeprecated then legacy.error else none) := by
  constructor
  · simp [usePontusXRegistry, combinedData, hleg]
  · rfl

/-- C8 witness: primary data survives a legacy outage and the legacy
error is reported when no primary error exists. -/
theorem registry_legacy_failure_degrades_witness :
    (usePontusXRegistry demoResolve { includeDeprecated := true }
        { data := some demoRecords, isLoading := false, error := none }
        { data := none, isLoading := false, error := some "legacy down" }).data =
      some demoRecords ∧
    (usePontusXRegistry demoResolve { includeDeprecated := true }
        { data := some demoRecords, isLoading := false, error := none }
        { data := none, isLoading := false, error := some "legacy down" }).error =
      some "legacy down" :=
  ⟨(registry_legacy_failure_degrades demoResolve _ _ _ rfl).1,
   (registry_legacy_failure_degrades demoResolve _ _ _ rfl).2⟩

/-- Merging with an empty primary set keeps every legacy entry. -/
theorem mergeDeprecated_nil_left (L : List Identity) :
    mergeDeprecated [] L = L := by
  simp [mergeDeprecated]

/-- C9 counterexample: with deprecated entries requested and loaded
while the primary fetch has produced no data yet, the hook returns the
legacy entries, not the empty list. -/
theorem registry_data_empty_counterexample :
    (usePontusXRegistry demoResolve { includeDeprecated := true }
        { data := none, isLoading := true, error := none }
        { data := some legacyDemo, isLoading := false, error := none }).data =
      some legacyDemo ∧
    some legacyDemo ≠ some ([] : List Identity) := by
  refine ⟨rfl, by simp [legacyDemo]⟩

/-- C9 (amended). The hook's data field is never `undefined`: it is
always `some` array. When the primary fetch has produced no data, the
primary contribution is empty: with deprecated entries not requested,
or not loaded, the hook returns the empty list; otherwise it returns
exactly the (search-filtered) legacy entries. -/
theorem registry_data_never_undefined
    (resolve : String → Option (Option String)) (config : RegistryConfig)
    (primary legacy : SwrListState) :
    (∃ l, (usePontusXRegistry resolve config primary legacy).data = some l) ∧
    (primary.data = none → config.includeDeprecated = false →
      (usePontusXRegistry resolve config primary legacy).data = some []) ∧
    (primary.data = none → legacy.data = none →
      (usePontusXRegistry resolve config primary legacy).data = some []) ∧
    (primary.data = none → config.includeDeprecated = true →
      ∀ D, legacy.data = some D →
        (usePontusXRegistry resolve config primary legacy).data =
          some (match config.search with
                | some s => D.filter fun i => matchIdentity resolve i s
                | none => D)) := by
  refine ⟨⟨_, rfl⟩, ?_, ?_, ?_⟩
  · intro hp hinc
    cases hcs : config.search <;>
      simp [usePontusXRegistry, combinedData, hp, hinc, hcs]
  · intro hp hleg
    cases hcs : config.search <;>
      simp [usePontusXRegistry, combinedData, hp, hleg, hcs]
  · intro hp hinc D hD
    cases hcs : config.search <;>
      simp [usePontusXRegistry, combinedData, hp, hinc, hD, hcs,
            mergeDeprecated_nil_left]

/-- C9 witness: no data and no legacy yields the empty list; no data
with loaded legacy yields exactly the legacy entries. -/
theorem registry_data_never_undefined_witness :
    (usePontusXRegistry demoResolve {}
        { data := none, isLoading := true, error := none }
        { data := none, isLoading := false, error := none }).data = some [] ∧
    (usePontusXRegistry demoResolve { includeDeprecated := true }
        { data := none, isLoading := true, error := none }
        { data := some legacyDemo, isLoading := false, error := none }).data =
      some legacyDemo :=
  ⟨(registry_data_never_undefined demoResolve _ _ _).2.1 rfl rfl,
   (registry_data_never_undefined demoResolve _ _ _).2.2.2 rfl rfl
     legacyDemo rfl⟩

/-- C10. When the contract address or the wallet address is absent, no
request URL is built and no fetch is issued (the resulting state is
the same whatever the fetcher would do), and the hook reports no
identity, `isFound` false, no error and not loading. -/
theorem byContract_absent_address_no_fetch (baseUrl : String)
    (contractAddress walletAddress : Option String)
    (h : contractAddress = none ∨ walletAddress = none)
    (fetcher : String → Except String Identity) :
    buildIdentityUrl baseUrl contractAddress walletAddress = none ∧
    usePontusXIdentityByContract baseUrl contractAddress walletAddress fetcher =
      { identity := none, isLoading := false, error := none,
        isFound := false, legalName := none } := by
  have hurl : buildIdentityUrl baseUrl contractAddress walletAddress = none := by
    rcases h with h | h <;> simp [buildIdentityUrl, h, jsStrOptTruthy]
  exact ⟨hurl, by simp [usePontusXIdentityByContract, hurl, useSWRIdentity]⟩

/-- C10 witness: an absent contract address with a failing fetcher
still yields the empty, error-free state. -/
theorem byContract_absent_address_no_fetch_witness :
    usePontusXIdentityByContract "https://cache.registry.pontus-x.eu"
        none (some "0xe0d15ab8") (fun _ => Except.error "network down") =
      { identity := none, isLoading := false, error := none,
        isFound := false, legalName := none } :=
  (byContract_absent_address_no_fetch _ _ _ (Or.inl rfl) _).2
